import Mathlib

/-!
Shallow embedding of the `checkpointing` package of the arbitrum validator
(`rollupcheckpointer.go` in the claims' source file): a block-indexed
checkpoint store on a flat key-value engine, with reorg reconciliation,
head trimming and a deferred-delete GC queue.

Modelling conventions, all derived from the Go source:
* `common.Hash` values (header hashes, value hashes, machine hashes) are
  abstracted as `Nat` tags; `common.TimeBlocks` heights (`big.Int`) are `Int`.
* The key-value store maps the five kinds of keys actually used by the
  source (`"metadata"`, `"deadqueue"`, `"manifest:"||enc(id)`,
  `"contents:"||enc(id)`, `"links:"||enc(id)`) to stored byte strings.
  The protobuf encodings are abstracted by the inductive `Datum`: a stored
  byte string is either the encoding of one of the record messages, or the
  caller's opaque contents blob (which also plays the role of undecodable
  junk, since the source never decodes contents).  `proto.Unmarshal` of a
  zero-length / absent byte string succeeds and yields the empty message,
  exactly as in Go protobuf, so `Store.getData = none` (absent or empty
  bytes, which the source never distinguishes: it only length-tests or
  unmarshals the result) decodes to the empty message, and the encoding of
  an empty `BlockIdBufList` is the empty byte string, i.e. `none`.
* Every mutating operation additionally returns the list of storage-adapter
  effects (`Ev`) it performed, in order, so that claims about write / delete
  ordering can be stated about the trace; `SaveValue` and machine
  `Checkpoint` calls only appear in the trace since the subobject stores are
  external collaborators.
* Paths on which the Go code crashes the process (`log.Fatal` on a decode
  failure in `_updateNextPointer`, nil-pointer dereference when
  unmarshalling an absent sub-message) are modelled as `none` / an explicit
  outcome constructor; paths on which a Go function `return`s an error
  without further writes are modelled the same way when no claim needs the
  distinction (noted at each definition).
-/

namespace Checkpointing

/-- 32-byte tags (header / value / machine hashes), abstracted. -/
abbrev Hash := Nat

/-- `common.BlockId`: `(height, header hash)`. -/
structure BlockId where
  height : Int
  headerHash : Hash
deriving DecidableEq

/-- `CheckpointLinks` protobuf message; sub-messages are nilable. -/
structure CheckpointLinks where
  prev : Option BlockId
  next : Option BlockId
deriving DecidableEq

/-- `CheckpointMetadata` protobuf message. -/
structure CheckpointMetadata where
  formatVersion : Nat
  oldest : Option BlockId
  newest : Option BlockId
deriving DecidableEq

/-- `CheckpointManifest` protobuf message: referenced value and machine hashes. -/
structure CheckpointManifest where
  values : List Hash
  machines : List Hash
deriving DecidableEq

/-- The `CheckpointContext` passed to a save: manifest plus the value and
machine maps (modelled by the lists of their hashes, in the iteration order
the Go map ranges happen to use). -/
structure CheckpointContext where
  manifest : CheckpointManifest
  values : List Hash
  machines : List Hash

/-- The keys the source writes: two singletons and three per-block
namespaces (`getManifestKey`, `getContentsKey`, `getLinksKey`); the byte
prefixes are distinct and the `BlockId` encoding is deterministic, so the
keys form this inductive. -/
inductive StoreKey
| metadata
| deadqueue
| manifestK (id : BlockId)
| contentsK (id : BlockId)
| linksK (id : BlockId)
deriving DecidableEq

/-- A non-empty stored byte string: one of the record encodings, or an
opaque blob (caller contents / undecodable junk). -/
inductive Datum
| meta (m : CheckpointMetadata)
| links (l : CheckpointLinks)
| queue (q : List BlockId)
| manifest (m : CheckpointManifest)
| blob (b : List Nat)
deriving DecidableEq

/-- Storage-adapter effects, in the order the source performs them. -/
inductive Ev
| saveData (k : StoreKey) (b : Option Datum)
| deleteData (k : StoreKey)
| saveValue (h : Hash)
| saveMachine (h : Hash)
| deleteValue (h : Hash)
| deleteCheckpoint (h : Hash)
deriving DecidableEq

/-- The key-value store, as an association list (first binding wins). -/
structure Store where
  data : List (StoreKey × Datum)
deriving DecidableEq

def eraseKey (l : List (StoreKey × Datum)) (k : StoreKey) :
    List (StoreKey × Datum) :=
  l.filter (fun p => !(p.1 == k))

/-- `st.GetData`: `none` is an absent key or zero-length bytes (the source
never distinguishes the two). -/
def Store.getData (s : Store) (k : StoreKey) : Option Datum :=
  (s.data.find? (fun p => p.1 == k)).map (·.2)

/-- Write `b` at `k` (`none` = zero-length bytes, identified with absence). -/
def Store.setData (s : Store) (k : StoreKey) : Option Datum → Store
| none => ⟨eraseKey s.data k⟩
| some d => ⟨(k, d) :: eraseKey s.data k⟩

/-- `proto.Unmarshal` into `CheckpointMetadata`: empty bytes give the empty
message, a metadata encoding gives its message, anything else fails. -/
def decodeMeta : Option Datum → Option CheckpointMetadata
| none => some ⟨0, none, none⟩
| some (.meta m) => some m
| some _ => none

/-- `proto.Unmarshal` into `CheckpointLinks`. -/
def decodeLinks : Option Datum → Option CheckpointLinks
| none => some ⟨none, none⟩
| some (.links l) => some l
| some _ => none

/-- `proto.Unmarshal` into `BlockIdBufList` (the dead queue). -/
def decodeQueue : Option Datum → Option (List BlockId)
| none => some []
| some (.queue q) => some q
| some _ => none

/-- `proto.Unmarshal` into `CheckpointManifest`. -/
def decodeManifest : Option Datum → Option CheckpointManifest
| none => some ⟨[], []⟩
| some (.manifest m) => some m
| some _ => none

/-- `proto.Marshal` of a `BlockIdBufList`: the empty list encodes to zero
bytes, i.e. `none`. -/
def marshalQueue (q : List BlockId) : Option Datum :=
  if q.isEmpty then none else some (.queue q)

/-- `rcp.st.SaveData`, with its trace event. -/
def saveData (s : Store) (k : StoreKey) (b : Option Datum) : Store × List Ev :=
  (s.setData k b, [.saveData k b])

/-- `rcp.st.DeleteData`, with its trace event. -/
def deleteData (s : Store) (k : StoreKey) : Store × List Ev :=
  (s.setData k none, [.deleteData k])

/-- `rcp.SaveMetadata` (takes already-marshalled bytes). -/
def SaveMetadata (s : Store) (b : Option Datum) : Store × List Ev :=
  saveData s .metadata b

/-- `rcp.RestoreMetadata`. -/
def RestoreMetadata (s : Store) : Option Datum :=
  s.getData .metadata

/-- `rcp.DeleteMetadata`. -/
def DeleteMetadata (s : Store) : Store × List Ev :=
  deleteData s .metadata

/-- `rcp.HasCheckpointedState`: metadata bytes non-nil and non-empty. -/
def HasCheckpointedState (s : Store) : Bool :=
  (RestoreMetadata s).isSome

/-- `rcp._setBothPointers id prev next`. -/
def _setBothPointers (s : Store) (id prev next : BlockId) : Store × List Ev :=
  saveData s (.linksK id) (some (.links ⟨some prev, some next⟩))

/-- `rcp._updateNextPointer id next`: read-modify-write of `id`'s links
record.  A decode failure is `log.Fatal` in Go (process crash): `none`. -/
def _updateNextPointer (s : Store) (id next : BlockId) :
    Option (Store × List Ev) :=
  match decodeLinks (s.getData (.linksK id)) with
  | none => none
  | some links =>
      some (saveData s (.linksK id) (some (.links { links with next := some next })))

/-- `rcp.SaveCheckpoint blockId prevBlockId contents manifest values machines`:
save every value, checkpoint every machine, write the manifest and contents
records, update the previous tip's next pointer (unconditionally), then
write the new block's links record.  `none` only on the `log.Fatal` inside
`_updateNextPointer`. -/
def SaveCheckpoint (s : Store) (blockId prevBlockId : BlockId)
    (contents : List Nat) (manifest : CheckpointManifest)
    (values machines : List Hash) : Option (Store × List Ev) :=
  let ev1 := values.map Ev.saveValue
  let ev2 := machines.map Ev.saveMachine
  let (s1, e3) := saveData s (.manifestK blockId) (some (.manifest manifest))
  let (s2, e4) := saveData s1 (.contentsK blockId) (some (.blob contents))
  match _updateNextPointer s2 prevBlockId blockId with
  | none => none
  | some (s3, e5) =>
      let (s4, e6) := _setBothPointers s3 blockId prevBlockId blockId
      some (s4, ev1 ++ ev2 ++ e3 ++ e4 ++ e5 ++ e6)

/-- `rcp._saveCheckpoint id contents checkpointCtx`: read or create the
metadata, save the checkpoint records with `prev = ` the previous newest,
then persist metadata with `newest = id`.  `none` collapses the three
non-success exits: metadata decode failure (Go returns the error with no
writes performed), a nil `Newest` sub-message (Go panics), and the
`log.Fatal` inside `SaveCheckpoint`; every claim below concerns the
committed (`some`) case. -/
def _saveCheckpoint (s : Store) (id : BlockId) (contents : List Nat)
    (checkpointCtx : CheckpointContext) : Option (Store × List Ev) :=
  match RestoreMetadata s with
  | none =>
      let metadataBuf : CheckpointMetadata := ⟨1, some id, some id⟩
      let (s1, e1) := SaveMetadata s (some (.meta metadataBuf))
      match SaveCheckpoint s1 id id contents checkpointCtx.manifest
          checkpointCtx.values checkpointCtx.machines with
      | none => none
      | some (s2, e2) =>
          let (s3, e3) :=
            SaveMetadata s2 (some (.meta { metadataBuf with newest := some id }))
          some (s3, e1 ++ e2 ++ e3)
  | some d =>
      match decodeMeta (some d) with
      | none => none
      | some metadataBuf =>
          match metadataBuf.newest with
          | none => none
          | some newestInCp =>
              match SaveCheckpoint s id newestInCp contents checkpointCtx.manifest
                  checkpointCtx.values checkpointCtx.machines with
              | none => none
              | some (s2, e2) =>
                  let (s3, e3) :=
                    SaveMetadata s2
                      (some (.meta { metadataBuf with newest := some id }))
                  some (s3, e2 ++ e3)

/-- `rcp.RestoreCheckpoint blockId`, returning
`(contents bytes, restore-context present?, error?)`; the outer `none` is
the Go nil-pointer panic when a decoded metadata has a nil `Oldest` or
`Newest` sub-message. -/
def RestoreCheckpoint (s : Store) (blockId : BlockId) :
    Option (Option Datum × Bool × Bool) :=
  match RestoreMetadata s with
  | none => some (none, false, false)
  | some d =>
      match decodeMeta (some d) with
      | none => some (none, false, true)
      | some metadataBuf =>
          match metadataBuf.oldest, metadataBuf.newest with
          | some oldest, some newest =>
              if blockId.height < oldest.height ∨ newest.height < blockId.height then
                some (none, false, false)
              else
                some (s.getData (.contentsK blockId), true, false)
          | _, _ => none

/-- `rcp.QueueCheckpointForDeletion blockId`: best-effort append to the
persisted dead queue; a decode failure silently returns. -/
def QueueCheckpointForDeletion (s : Store) (blockId : BlockId) :
    Store × List Ev :=
  match decodeQueue (s.getData .deadqueue) with
  | none => (s, [])
  | some queue => saveData s .deadqueue (marshalQueue (queue ++ [blockId]))

/-- The chain client (`arbbridge.ArbClient.BlockIdForHeight`): `none` is a
client error. -/
def ArbClient : Type := Int → Option BlockId

/-- The loop of `rcp.QueueReorgedCheckpointsForDeletion`, with explicit
fuel (the Go loop has no bound; every claim is about individual
iterations).  State: the in-memory `metadata` struct, the current
`newestId`, the store, and the trace so far.  When a links record has a nil
`Prev`, Go persists the truncated metadata, enqueues the tip, and then
panics unmarshalling the nil `Newest`; the store is left exactly as
persisted, which is how it is modelled. -/
def queueReorgedLoop (client : ArbClient) (oldestId : BlockId) :
    Nat → CheckpointMetadata → BlockId → Store → List Ev → Store × List Ev
| 0, _, _, s, tr => (s, tr)
| fuel + 1, metadata, newestId, s, tr =>
  if newestId.height ≤ oldestId.height then
    -- loop exit: only a single checkpoint remains
    match client newestId.height with
    | none => (s, tr)
    | some onChainId =>
        if onChainId.headerHash = newestId.headerHash then (s, tr)
        else
          let (s1, e1) := DeleteMetadata s
          let (s2, e2) := QueueCheckpointForDeletion s1 newestId
          (s2, tr ++ e1 ++ e2)
  else
    match client newestId.height with
    | none => (s, tr)
    | some onChainId =>
        if onChainId.headerHash = newestId.headerHash then (s, tr)
        else
          match decodeLinks (s.getData (.linksK newestId)) with
          | none => (s, tr)
          | some linksBuf =>
              let metadata2 := { metadata with newest := linksBuf.prev }
              let (s1, e1) := SaveMetadata s (some (.meta metadata2))
              let (s2, e2) := QueueCheckpointForDeletion s1 newestId
              match linksBuf.prev with
              | none => (s2, tr ++ e1 ++ e2)
              | some newId =>
                  queueReorgedLoop client oldestId fuel metadata2 newId s2
                    (tr ++ e1 ++ e2)

/-- `rcp.QueueReorgedCheckpointsForDeletion`: reorg reconciliation.  A nil
`Oldest` or `Newest` sub-message makes Go panic before any write; the store
is unchanged, which is how it is modelled. -/
def QueueReorgedCheckpointsForDeletion (fuel : Nat) (client : ArbClient)
    (s : Store) : Store × List Ev :=
  match RestoreMetadata s with
  | none => (s, [])
  | some d =>
      match decodeMeta (some d) with
      | none => (s, [])
      | some metadata =>
          match metadata.oldest, metadata.newest with
          | some oldestId, some newestId =>
              queueReorgedLoop client oldestId fuel metadata newestId s []
          | _, _ => (s, [])

/-- Outcome of the (fuelled) head-trimming loop. -/
inductive QOutcome
| returned
| panicked
| outOfFuel
deriving DecidableEq

/-- `rcp.QueueOldCheckpointsForDeletion earliestRollbackPoint`, with
explicit fuel.  Each iteration re-reads metadata from the store, builds the
advanced metadata in memory and marshals it, but — exactly as the source
does — never persists it back, then enqueues the candidate and loops.
`panicked` marks the nil-sub-message dereferences Go would crash on. -/
def QueueOldCheckpointsForDeletion (earliestRollbackPoint : Int) :
    Nat → Store → List Ev → Store × List Ev × QOutcome
| 0, s, tr => (s, tr, .outOfFuel)
| fuel + 1, s, tr =>
  match decodeMeta (RestoreMetadata s) with
  | none => (s, tr, .returned)
  | some metadataBuf =>
      match metadataBuf.oldest with
      | none => (s, tr, .panicked)
      | some candidateId =>
          match decodeLinks (s.getData (.linksK candidateId)) with
          | none => (s, tr, .returned)
          | some links =>
              match links.next with
              | none => (s, tr, .panicked)
              | some nxt =>
                  if earliestRollbackPoint ≤ nxt.height then (s, tr, .returned)
                  else
                    let (s1, e1) := QueueCheckpointForDeletion s candidateId
                    QueueOldCheckpointsForDeletion earliestRollbackPoint fuel s1
                      (tr ++ e1)

/-- `rcp.DeleteOneOldCheckpoint blockId`: skip if the manifest is absent or
undecodable; otherwise delete the manifest record, then every referenced
value and machine, then the contents and links records. -/
def DeleteOneOldCheckpoint (s : Store) (blockId : BlockId) : Store × List Ev :=
  match s.getData (.manifestK blockId) with
  | none => (s, [])
  | some d =>
      match decodeManifest (some d) with
      | none => (s, [])
      | some manifestBuf =>
          let (s1, e1) := deleteData s (.manifestK blockId)
          let e2 := manifestBuf.values.map Ev.deleteValue
          let e3 := manifestBuf.machines.map Ev.deleteCheckpoint
          let (s2, e4) := deleteData s1 (.contentsK blockId)
          let (s3, e5) := deleteData s2 (.linksK blockId)
          (s3, e1 ++ e2 ++ e3 ++ e4 ++ e5)

/-- The deletion loop of `deleteSomeOldCheckpoints`: pop and delete
`numToDelete` entries from the head of the in-memory queue. -/
def deleteLoop : Nat → List BlockId → Store → List Ev →
    List BlockId × Store × List Ev
| 0, q, s, tr => (q, s, tr)
| _ + 1, [], s, tr => ([], s, tr)
| n + 1, b :: rest, s, tr =>
    let (s1, e1) := DeleteOneOldCheckpoint s b
    deleteLoop n rest s1 (tr ++ e1)

/-- `rcp.deleteSomeOldCheckpoints` (one GC tick): delete `len/10` entries,
bumped to `1` when that is zero but the queue is non-empty, then persist
the remaining queue. -/
def deleteSomeOldCheckpoints (s : Store) : Store × List Ev :=
  match decodeQueue (s.getData .deadqueue) with
  | none => (s, [])
  | some queue =>
      let numInQueue := queue.length
      let numToDelete0 := numInQueue / 10
      let numToDelete :=
        if numToDelete0 = 0 ∧ 0 < numInQueue then 1 else numToDelete0
      let (q2, s1, tr) := deleteLoop numToDelete queue s []
      let (s2, e2) := saveData s1 .deadqueue (marshalQueue q2)
      (s2, tr ++ e2)

/-- Result of `RestoreLatestState`: which exit was taken; `callback c ctx`
means the caller's `unmarshalFunc` was invoked with contents `c` and a live
restore context. -/
inductive RestoreLatestResult
| errNoCheckpoints
| errCorrupt
| errRestore
| panicked
| callback (contents : Option Datum) (hasCtx : Bool)
deriving DecidableEq

/-- `rcp.RestoreLatestState`: reorg-reconcile, then decode metadata and
restore the newest checkpoint, handing its contents to the caller's
callback. -/
def RestoreLatestState (fuel : Nat) (client : ArbClient) (s : Store) :
    Store × List Ev × RestoreLatestResult :=
  let (s1, e1) := QueueReorgedCheckpointsForDeletion fuel client s
  match RestoreMetadata s1 with
  | none => (s1, e1, .errNoCheckpoints)
  | some d =>
      match decodeMeta (some d) with
      | none => (s1, e1, .errCorrupt)
      | some metadata =>
          match metadata.newest with
          | none => (s1, e1, .panicked)
          | some newestId =>
              match RestoreCheckpoint s1 newestId with
              | none => (s1, e1, .panicked)
              | some (cobBytes, hasCtx, err) =>
                  if err then (s1, e1, .errRestore)
                  else (s1, e1, .callback cobBytes hasCtx)

/-- The previous tip a committed save of `id` links back to: the decoded
`metadata.newest`, or `id` itself when the store held no metadata. -/
def prevNewest (s : Store) (id : BlockId) : Option BlockId :=
  match RestoreMetadata s with
  | none => some id
  | some d => (decodeMeta (some d)).bind CheckpointMetadata.newest

/-- The metadata record a committed save of `id` persists last. -/
def savedMetaAfter (s : Store) (id : BlockId) : Option CheckpointMetadata :=
  match RestoreMetadata s with
  | none => some ⟨1, some id, some id⟩
  | some d => (decodeMeta (some d)).map (fun m => { m with newest := some id })

/-! ### Key-value store lemmas -/

theorem find?_eraseKey (l : List (StoreKey × Datum)) (k : StoreKey) :
    (eraseKey l k).find? (fun p => p.1 == k) = none := by
  rw [List.find?_eq_none]
  intro x hx
  rw [eraseKey, List.mem_filter] at hx
  simpa using hx.2

theorem find?_eraseKey_ne (l : List (StoreKey × Datum)) (k k' : StoreKey)
    (h : k' ≠ k) :
    (eraseKey l k).find? (fun p => p.1 == k') = l.find? (fun p => p.1 == k') := by
  induction l with
  | nil => rfl
  | cons a t ih =>
      rw [eraseKey, List.filter_cons]
      by_cases ha : a.1 = k
      · rw [if_neg (by simp [ha])]
        rw [List.find?_cons_of_neg _ (by simp [ha]; exact fun e => h e.symm)]
        exact ih
      · rw [if_pos (by simpa using ha)]
        by_cases hk : a.1 = k'
        · rw [List.find?_cons_of_pos _ (by simp [hk]),
            List.find?_cons_of_pos _ (by simp [hk])]
        · rw [List.find?_cons_of_neg _ (by simp [hk]),
            List.find?_cons_of_neg _ (by simp [hk])]
          exact ih

theorem getData_setData_same (s : Store) (k : StoreKey) (v : Option Datum) :
    (s.setData k v).getData k = v := by
  cases v with
  | none =>
      show (Store.mk (eraseKey s.data k)).getData k = none
      rw [Store.getData, find?_eraseKey]
      rfl
  | some d =>
      show (Store.mk ((k, d) :: eraseKey s.data k)).getData k = some d
      rw [Store.getData, List.find?_cons_of_pos _ (by simp)]
      rfl

theorem getData_setData_ne (s : Store) (k k' : StoreKey) (v : Option Datum)
    (h : k' ≠ k) : (s.setData k v).getData k' = s.getData k' := by
  cases v with
  | none =>
      show (Store.mk (eraseKey s.data k)).getData k' = _
      rw [Store.getData, find?_eraseKey_ne _ _ _ h]
      rfl
  | some d =>
      show (Store.mk ((k, d) :: eraseKey s.data k)).getData k' = _
      rw [Store.getData, List.find?_cons_of_neg _ (by simpa using Ne.symm h),
        find?_eraseKey_ne _ _ _ h]
      rfl

theorem eraseKey_of_getData_none (s : Store) (k : StoreKey)
    (h : s.getData k = none) : eraseKey s.data k = s.data := by
  rw [eraseKey, List.filter_eq_self]
  intro a ha
  rw [Store.getData, Option.map_eq_none'] at h
  have := List.find?_eq_none.mp h a ha
  simpa using this

theorem decodeQueue_marshalQueue (q : List BlockId) :
    decodeQueue (marshalQueue q) = some q := by
  rw [marshalQueue]
  by_cases h : q.isEmpty
  · rw [if_pos h, decodeQueue]
    rw [List.isEmpty_iff] at h
    rw [h]
  · rw [if_neg h]
    rfl

/-! ### Claim C9 -/

/-- Claim C9: `gc_tick` (`deleteSomeOldCheckpoints`) applied to an empty
dead queue is a no-op: when the deadqueue key holds zero bytes (absent —
which is exactly what an empty queue marshals to), the tick performs no
delete (its only effect is rewriting the same empty bytes to the deadqueue
key) and the resulting store, including the deadqueue key, equals the
original store. -/
theorem c9_gc_tick_empty_noop (s : Store)
    (h : s.getData .deadqueue = none) :
    deleteSomeOldCheckpoints s = (s, [Ev.saveData .deadqueue none]) := by
  rw [deleteSomeOldCheckpoints, h]
  show (let queue : List BlockId := []
        let numInQueue := queue.length
        let numToDelete0 := numInQueue / 10
        let numToDelete :=
          if numToDelete0 = 0 ∧ 0 < numInQueue then 1 else numToDelete0
        let r := deleteLoop numToDelete queue s []
        let r2 := saveData r.2.1 .deadqueue (marshalQueue r.1)
        (r2.1, r.2.2 ++ r2.2)) = _
  simp only [List.length_nil, Nat.zero_div, Nat.lt_irrefl, and_false, if_false]
  show (((s.setData .deadqueue (marshalQueue [])), _) : Store × List Ev) = _
  rw [marshalQueue]
  simp only [List.isEmpty_nil, if_true]
  show ((Store.mk (eraseKey s.data .deadqueue), _) : Store × List Ev) = _
  rw [eraseKey_of_getData_none s _ h]
  rfl

/-- Witness for C9 at the empty store. -/
theorem c9_gc_tick_empty_noop_witness :
    (Store.mk []).getData .deadqueue = none ∧
    deleteSomeOldCheckpoints ⟨[]⟩ = (⟨[]⟩, [Ev.saveData .deadqueue none]) :=
  ⟨rfl, c9_gc_tick_empty_noop ⟨[]⟩ rfl⟩

/-! ### Claim C8 -/

/-- Claim C8: on a store with no metadata, `HasCheckpointedState` is
`false`, and `RestoreLatestState` returns the "no checkpoints in database"
(NotFound-kind) error without invoking the restore callback (the
`.callback` outcome never arises) and without modifying the store. -/
theorem c8_empty_store (fuel : Nat) (client : ArbClient) (s : Store)
    (h : RestoreMetadata s = none) :
    HasCheckpointedState s = false ∧
    RestoreLatestState fuel client s = (s, [], .errNoCheckpoints) := by
  refine ⟨by rw [HasCheckpointedState, h]; rfl, ?_⟩
  rw [RestoreLatestState, QueueReorgedCheckpointsForDeletion, h]
  show (match RestoreMetadata s with
        | none => (s, ([] : List Ev), RestoreLatestResult.errNoCheckpoints)
        | some d => _) = _
  rw [h]

/-- Witness for C8: the empty store, a chain client that always errors. -/
theorem c8_empty_store_witness :
    RestoreMetadata ⟨[]⟩ = none ∧
    HasCheckpointedState ⟨[]⟩ = false ∧
    RestoreLatestState 3 (fun _ => none) ⟨[]⟩ =
      (⟨[]⟩, [], .errNoCheckpoints) := by
  refine ⟨rfl, ?_, ?_⟩
  · exact (c8_empty_store 3 (fun _ => none) ⟨[]⟩ rfl).1
  · exact (c8_empty_store 3 (fun _ => none) ⟨[]⟩ rfl).2

/-! ### Claim C4 -/

/-- Store used to refute C4: one enqueued block whose manifest references
one value hash and one machine hash. -/
def c4store : Store :=
  ⟨[(.manifestK ⟨5, 1⟩, .manifest ⟨[3], [4]⟩)]⟩

/-- Counterexample to C4: in a GC deletion of an entry whose manifest is
present, the manifest key is the FIRST delete performed, not the last —
the last delete is the links key. -/
theorem c4_counterexample :
    (DeleteOneOldCheckpoint c4store ⟨5, 1⟩).2.head? =
      some (.deleteData (.manifestK ⟨5, 1⟩)) ∧
    (DeleteOneOldCheckpoint c4store ⟨5, 1⟩).2.getLast? =
      some (.deleteData (.linksK ⟨5, 1⟩)) ∧
    (DeleteOneOldCheckpoint c4store ⟨5, 1⟩).2.getLast? ≠
      some (.deleteData (.manifestK ⟨5, 1⟩)) := by
  refine ⟨rfl, rfl, ?_⟩
  decide

/-- Claim C4 as amended: for each dequeued id whose manifest is present and
decodable, the deletion of the manifest key is the FIRST delete performed
for that entry; then every referenced value hash and machine hash is
deleted, and the contents and links keys of the id are deleted last. -/
theorem c4_amended_manifest_deleted_first (s : Store) (id : BlockId)
    (d : Datum) (mf : CheckpointManifest)
    (h1 : s.getData (.manifestK id) = some d)
    (h2 : decodeManifest (some d) = some mf) :
    (DeleteOneOldCheckpoint s id).2 =
      Ev.deleteData (.manifestK id) ::
        (mf.values.map Ev.deleteValue ++ mf.machines.map Ev.deleteCheckpoint ++
          [Ev.deleteData (.contentsK id), Ev.deleteData (.linksK id)]) := by
  simp [DeleteOneOldCheckpoint, h1, h2, deleteData]

/-- Witness for the amended C4 at `c4store`. -/
theorem c4_amended_witness :
    c4store.getData (.manifestK ⟨5, 1⟩) = some (.manifest ⟨[3], [4]⟩) ∧
    (DeleteOneOldCheckpoint c4store ⟨5, 1⟩).2 =
      Ev.deleteData (.manifestK ⟨5, 1⟩) ::
        ([Ev.deleteValue 3] ++ [Ev.deleteCheckpoint 4] ++
          [Ev.deleteData (.contentsK ⟨5, 1⟩), Ev.deleteData (.linksK ⟨5, 1⟩)]) :=
  ⟨rfl, c4_amended_manifest_deleted_first c4store ⟨5, 1⟩ _ ⟨[3], [4]⟩ rfl rfl⟩

/-! ### Claim C10 -/

/-- Claim C10: `RestoreCheckpoint` returns an error only on a metadata
decode failure.  Absent metadata and an out-of-range height both yield
`(no contents, no context, no error)`; for an in-range height it returns
whatever bytes the contents key of the requested id holds — possibly none —
with no error, and without checking that the contents, links, or manifest
records exist. -/
theorem c10_restore_error_only_on_corrupt_metadata (s : Store) (id : BlockId) :
    (RestoreMetadata s = none →
        RestoreCheckpoint s id = some (none, false, false)) ∧
    (∀ d, RestoreMetadata s = some d → decodeMeta (some d) = none →
        RestoreCheckpoint s id = some (none, false, true)) ∧
    (∀ m oldest newest, RestoreMetadata s = some (.meta m) →
        m.oldest = some oldest → m.newest = some newest →
        ((id.height < oldest.height ∨ newest.height < id.height) →
            RestoreCheckpoint s id = some (none, false, false)) ∧
        (oldest.height ≤ id.height → id.height ≤ newest.height →
            RestoreCheckpoint s id =
              some (s.getData (.contentsK id), true, false))) := by
  refine ⟨?_, ?_, ?_⟩
  · intro h
    rw [RestoreCheckpoint, h]
  · intro d h hd
    simp [RestoreCheckpoint, h, hd]
  · intro m oldest newest h ho hn
    constructor
    · intro hrange
      simp only [RestoreCheckpoint, RestoreMetadata] at *
      rw [h]
      simp only [decodeMeta, ho, hn]
      rw [if_pos hrange]
    · intro h1 h2
      simp only [RestoreCheckpoint, RestoreMetadata] at *
      rw [h]
      simp only [decodeMeta, ho, hn]
      rw [if_neg (by rw [not_or]; exact ⟨not_lt.mpr h1, not_lt.mpr h2⟩)]

/-- Store used for the C10 and C7 witnesses / counterexample: metadata
covering heights `[10, 12]`, with a contents record only for `(10, 1)`. -/
def c7store : Store :=
  ⟨[(.metadata, .meta ⟨1, some ⟨10, 1⟩, some ⟨12, 3⟩⟩),
    (.contentsK ⟨10, 1⟩, .blob [7])]⟩

/-- Witness for C10: each branch at concrete inputs — empty store, store
with junk metadata bytes, out-of-range height, and an in-range height whose
contents key is absent (no error, `none` contents). -/
theorem c10_witness :
    RestoreCheckpoint ⟨[]⟩ ⟨10, 1⟩ = some (none, false, false) ∧
    RestoreCheckpoint ⟨[(.metadata, .blob [9])]⟩ ⟨10, 1⟩ =
      some (none, false, true) ∧
    RestoreCheckpoint c7store ⟨13, 1⟩ = some (none, false, false) ∧
    RestoreCheckpoint c7store ⟨11, 2⟩ = some (none, true, false) := by
  refine ⟨?_, ?_, ?_, ?_⟩
  · exact (c10_restore_error_only_on_corrupt_metadata ⟨[]⟩ ⟨10, 1⟩).1 rfl
  · exact (c10_restore_error_only_on_corrupt_metadata
      ⟨[(.metadata, .blob [9])]⟩ ⟨10, 1⟩).2.1 _ rfl rfl
  · exact ((c10_restore_error_only_on_corrupt_metadata c7store ⟨13, 1⟩).2.2 _ _ _
      rfl rfl rfl).1 (by right; decide)
  · exact ((c10_restore_error_only_on_corrupt_metadata c7store ⟨11, 2⟩).2.2 _ _ _
      rfl rfl rfl).2 (by decide) (by decide)

/-! ### Claim C7 -/

/-- Counterexample to C7: the requested id's header hash IS consulted — the
contents are read under the full id key — so two ids with the same height
are distinguishable at lookup time: at `c7store`, `(10, 1)` (saved) returns
its contents while `(10, 2)` (same height, different hash, in range)
returns nil contents, and neither errors. -/
theorem c7_counterexample :
    (⟨10, 1⟩ : BlockId).height = (⟨10, 2⟩ : BlockId).height ∧
    RestoreCheckpoint c7store ⟨10, 1⟩ = some (some (.blob [7]), true, false) ∧
    RestoreCheckpoint c7store ⟨10, 2⟩ = some (none, true, false) ∧
    RestoreCheckpoint c7store ⟨10, 1⟩ ≠ RestoreCheckpoint c7store ⟨10, 2⟩ := by
  refine ⟨rfl, rfl, rfl, ?_⟩
  decide

/-- Claim C7 as amended: `RestoreCheckpoint` decides the membership (range)
check by height alone — an id is rejected exactly when its height lies
outside `[oldest.height, newest.height]`, with the header hash playing no
part in that decision — but for an in-range id the contents are read under
the full `(height, hash)` key, so two same-height ids both pass the check
yet may return different contents. -/
theorem c7_amended_membership_by_height (s : Store) (m : CheckpointMetadata)
    (oldest newest : BlockId)
    (h : RestoreMetadata s = some (.meta m))
    (ho : m.oldest = some oldest) (hn : m.newest = some newest) :
    ∀ id : BlockId,
      ((id.height < oldest.height ∨ newest.height < id.height) →
          RestoreCheckpoint s id = some (none, false, false)) ∧
      (oldest.height ≤ id.height → id.height ≤ newest.height →
          RestoreCheckpoint s id = some (s.getData (.contentsK id), true, false)) ∧
      (∀ id2 : BlockId, id2.height = id.height →
          ((RestoreCheckpoint s id = some (none, false, false)) ↔
            (RestoreCheckpoint s id2 = some (none, false, false)))) := by
  intro id
  have key : ∀ b : BlockId, RestoreCheckpoint s b =
      if b.height < oldest.height ∨ newest.height < b.height then
        some (none, false, false)
      else some (s.getData (.contentsK b), true, false) := by
    intro b
    simp only [RestoreCheckpoint, RestoreMetadata] at *
    rw [h]
    simp only [decodeMeta, ho, hn]
  refine ⟨fun hr => by rw [key, if_pos hr], fun h1 h2 => by
    rw [key, if_neg (by rw [not_or]; exact ⟨not_lt.mpr h1, not_lt.mpr h2⟩)], ?_⟩
  intro id2 hh
  rw [key, key, hh]
  by_cases hc : id.height < oldest.height ∨ newest.height < id.height
  · rw [if_pos hc, if_pos hc]
  · rw [if_neg hc, if_neg hc]
    constructor
    · intro he
      have := (Prod.mk.injEq _ _ _ _).mp (Option.some.injEq _ _ ▸ he)
      exact absurd (congrArg (fun r => r.2.1)
        (Option.some_inj.mp he)) (by simp)
    · intro he
      exact absurd (congrArg (fun r => r.2.1)
        (Option.some_inj.mp he)) (by simp)

/-- Witness for the amended C7 at `c7store`: the in-range saved id, an
in-range same-height unsaved id, and an out-of-range id. -/
theorem c7_amended_witness :
    RestoreCheckpoint c7store ⟨13, 5⟩ = some (none, false, false) ∧
    RestoreCheckpoint c7store ⟨10, 1⟩ =
      some (c7store.getData (.contentsK ⟨10, 1⟩), true, false) ∧
    ((RestoreCheckpoint c7store ⟨10, 1⟩ = some (none, false, false)) ↔
      (RestoreCheckpoint c7store ⟨10, 2⟩ = some (none, false, false))) := by
  refine ⟨?_, ?_, ?_⟩
  · exact (c7_amended_membership_by_height c7store _ _ _ rfl rfl rfl ⟨13, 5⟩).1
      (by right; decide)
  · exact (c7_amended_membership_by_height c7store _ _ _ rfl rfl rfl ⟨10, 1⟩).2.1
      (by decide) (by decide)
  · exact ((c7_amended_membership_by_height c7store _ _ _ rfl rfl rfl
      ⟨10, 2⟩).2.2 ⟨10, 1⟩ rfl).symm

/-! ### Claim C5 -/

theorem deleteLoop_fst (n : Nat) :
    ∀ (q : List BlockId) (s : Store) (tr : List Ev), n ≤ q.length →
      (deleteLoop n q s tr).1 = q.drop n := by
  induction n with
  | zero => intro q s tr _; rfl
  | succ n ih =>
      intro q s tr h
      cases q with
      | nil => simp at h
      | cons b rest =>
          rcases hd : DeleteOneOldCheckpoint s b with ⟨s1, e1⟩
          rw [deleteLoop, hd]
          exact ih rest _ _ (Nat.le_of_succ_le_succ h)

/-- Claim C5 as amended: one GC tick removes exactly
`max(1, floor(len/10))` entries from the head of the dead queue when
`len > 0`, and zero entries when `len = 0` (the spec's `ceiling` is wrong:
the source computes `len / 10` with integer — floor — division). -/
theorem c5_amended_gc_batch_size (s : Store) (q : List BlockId)
    (h : decodeQueue (s.getData .deadqueue) = some q) :
    decodeQueue (((deleteSomeOldCheckpoints s).1).getData .deadqueue) =
      some (q.drop (if 0 < q.length then max 1 (q.length / 10) else 0)) := by
  have hcount : (if q.length / 10 = 0 ∧ 0 < q.length then 1 else q.length / 10)
      = (if 0 < q.length then max 1 (q.length / 10) else 0) := by
    rcases Nat.eq_zero_or_pos q.length with h0 | hpos
    · simp [h0]
    · rw [if_pos hpos]
      by_cases hz : q.length / 10 = 0
      · simp [hz, hpos]
      · rw [if_neg (fun hc => hz hc.1)]
        exact (Nat.max_eq_right (Nat.one_le_iff_ne_zero.mpr hz)).symm
  have hle : (if q.length / 10 = 0 ∧ 0 < q.length then 1 else q.length / 10)
      ≤ q.length := by
    by_cases hc : q.length / 10 = 0 ∧ 0 < q.length
    · rw [if_pos hc]; exact hc.2
    · rw [if_neg hc]; exact Nat.div_le_self _ _
  rcases hd : deleteLoop
      (if q.length / 10 = 0 ∧ 0 < q.length then 1 else q.length / 10) q s []
    with ⟨q2, s1, tr⟩
  have hq2 : q2 = q.drop (if 0 < q.length then max 1 (q.length / 10) else 0) := by
    have h2 := deleteLoop_fst _ q s [] hle
    rw [hd] at h2
    rw [← hcount, ← h2]
  simp only [deleteSomeOldCheckpoints, h]
  rw [hd]
  simp [saveData, getData_setData_same, decodeQueue_marshalQueue, hq2]

/-- An 11-entry dead queue (no other records: every dequeued id has an
absent manifest, so per-entry deletion is skipped, which is irrelevant to
the batch size). -/
def c5queue : List BlockId :=
  [⟨1, 0⟩, ⟨2, 0⟩, ⟨3, 0⟩, ⟨4, 0⟩, ⟨5, 0⟩, ⟨6, 0⟩, ⟨7, 0⟩, ⟨8, 0⟩,
   ⟨9, 0⟩, ⟨10, 0⟩, ⟨11, 0⟩]

def c5store : Store := ⟨[(.deadqueue, .queue c5queue)]⟩

/-- Counterexample to C5: with `len = 11`, the claim's batch size
`max(1, ceiling(11/10))` is `2`, but the tick removes exactly one entry —
the remaining queue is `drop 1`, not `drop 2`. -/
theorem c5_counterexample :
    c5queue.length = 11 ∧
    max 1 ((11 + 10 - 1) / 10) = 2 ∧
    decodeQueue (((deleteSomeOldCheckpoints c5store).1).getData .deadqueue) =
      some (c5queue.drop 1) ∧
    some (c5queue.drop 1) ≠ some (c5queue.drop 2) := by
  refine ⟨rfl, rfl, rfl, by decide⟩

/-- Witness for the amended C5 at the 11-entry queue. -/
theorem c5_amended_witness :
    decodeQueue (c5store.getData .deadqueue) = some c5queue ∧
    decodeQueue (((deleteSomeOldCheckpoints c5store).1).getData .deadqueue) =
      some (c5queue.drop
        (if 0 < c5queue.length then max 1 (c5queue.length / 10) else 0)) :=
  ⟨rfl, c5_amended_gc_batch_size c5store c5queue rfl⟩

/-! ### Symbolic execution of a save (for claims C2 and C3) -/

theorem SaveCheckpoint_eq (s : Store) (id prev : BlockId) (c : List Nat)
    (mf : CheckpointManifest) (vs ms : List Hash) (l : CheckpointLinks)
    (hl : decodeLinks (s.getData (.linksK prev)) = some l) :
    SaveCheckpoint s id prev c mf vs ms =
      some (((((s.setData (.manifestK id) (some (.manifest mf))).setData
          (.contentsK id) (some (.blob c))).setData (.linksK prev)
          (some (.links { l with next := some id }))).setData (.linksK id)
          (some (.links ⟨some prev, some id⟩))),
        vs.map Ev.saveValue ++ ms.map Ev.saveMachine ++
          [Ev.saveData (.manifestK id) (some (.manifest mf)),
           Ev.saveData (.contentsK id) (some (.blob c)),
           Ev.saveData (.linksK prev) (some (.links { l with next := some id })),
           Ev.saveData (.linksK id) (some (.links ⟨some prev, some id⟩))]) := by
  have hg : ((s.setData (.manifestK id) (some (.manifest mf))).setData
      (.contentsK id) (some (.blob c))).getData (.linksK prev) =
      s.getData (.linksK prev) := by
    rw [getData_setData_ne _ _ _ _ (by simp), getData_setData_ne _ _ _ _ (by simp)]
  simp only [SaveCheckpoint, saveData, _updateNextPointer, _setBothPointers, hg, hl]
  simp

theorem SaveCheckpoint_none (s : Store) (id prev : BlockId) (c : List Nat)
    (mf : CheckpointManifest) (vs ms : List Hash)
    (hl : decodeLinks (s.getData (.linksK prev)) = none) :
    SaveCheckpoint s id prev c mf vs ms = none := by
  have hg : ((s.setData (.manifestK id) (some (.manifest mf))).setData
      (.contentsK id) (some (.blob c))).getData (.linksK prev) =
      s.getData (.linksK prev) := by
    rw [getData_setData_ne _ _ _ _ (by simp), getData_setData_ne _ _ _ _ (by simp)]
  simp only [SaveCheckpoint, saveData, _updateNextPointer, _setBothPointers, hg, hl]

/-- Symbolic execution of `_saveCheckpoint` on a store with no metadata:
the previous tip is `id` itself, and the initial metadata write precedes
all checkpoint record writes. -/
theorem _saveCheckpoint_empty_eq (s : Store) (id : BlockId) (c : List Nat)
    (ctx : CheckpointContext) (l : CheckpointLinks)
    (hm : RestoreMetadata s = none)
    (hl : decodeLinks (s.getData (.linksK id)) = some l) :
    _saveCheckpoint s id c ctx =
      some ((((((s.setData .metadata (some (.meta ⟨1, some id, some id⟩))).setData
          (.manifestK id) (some (.manifest ctx.manifest))).setData
          (.contentsK id) (some (.blob c))).setData (.linksK id)
          (some (.links { l with next := some id }))).setData (.linksK id)
          (some (.links ⟨some id, some id⟩))).setData .metadata
          (some (.meta ⟨1, some id, some id⟩)),
        Ev.saveData .metadata (some (.meta ⟨1, some id, some id⟩)) ::
          (ctx.values.map Ev.saveValue ++ ctx.machines.map Ev.saveMachine ++
           [Ev.saveData (.manifestK id) (some (.manifest ctx.manifest)),
            Ev.saveData (.contentsK id) (some (.blob c)),
            Ev.saveData (.linksK id) (some (.links { l with next := some id })),
            Ev.saveData (.linksK id) (some (.links ⟨some id, some id⟩)),
            Ev.saveData .metadata (some (.meta ⟨1, some id, some id⟩))])) := by
  have h1 : (s.setData .metadata
      (some (.meta ⟨1, some id, some id⟩))).getData (.linksK id) =
      s.getData (.linksK id) := getData_setData_ne _ _ _ _ (by simp)
  simp only [_saveCheckpoint, hm, SaveMetadata, saveData]
  rw [SaveCheckpoint_eq _ _ _ _ _ _ _ l (by rw [h1]; exact hl)]
  simp

/-- Symbolic execution of `_saveCheckpoint` on a store whose metadata
decodes with newest tip `t`. -/
theorem _saveCheckpoint_tip_eq (s : Store) (id t : BlockId) (c : List Nat)
    (ctx : CheckpointContext) (m : CheckpointMetadata) (l : CheckpointLinks)
    (hm : RestoreMetadata s = some (.meta m))
    (ht : m.newest = some t)
    (hl : decodeLinks (s.getData (.linksK t)) = some l) :
    _saveCheckpoint s id c ctx =
      some (((((s.setData (.manifestK id)
          (some (.manifest ctx.manifest))).setData
          (.contentsK id) (some (.blob c))).setData (.linksK t)
          (some (.links { l with next := some id }))).setData (.linksK id)
          (some (.links ⟨some t, some id⟩))).setData .metadata
          (some (.meta { m with newest := some id })),
        ctx.values.map Ev.saveValue ++ ctx.machines.map Ev.saveMachine ++
          [Ev.saveData (.manifestK id) (some (.manifest ctx.manifest)),
           Ev.saveData (.contentsK id) (some (.blob c)),
           Ev.saveData (.linksK t) (some (.links { l with next := some id })),
           Ev.saveData (.linksK id) (some (.links ⟨some t, some id⟩)),
           Ev.saveData .metadata (some (.meta { m with newest := some id }))]) := by
  simp only [_saveCheckpoint, hm, decodeMeta, ht, SaveMetadata, saveData]
  rw [SaveCheckpoint_eq _ _ _ _ _ _ _ _ hl]
  simp

/-! ### Claim C2 -/

/-- Claim C2: for every committed save of `id` into a store whose previous
tip was `t` (`t = id` when the store held no metadata): afterwards
`metadata.newest = id`, the links record of `id` has `prev = t` and
`next = id` (the tip self-link sentinel), and when `t ≠ id` the links
record of `t` has `next = id` — even though `SaveCheckpoint` calls
`_updateNextPointer` unconditionally, including for the first checkpoint. -/
theorem c2_committed_save_pointers (s : Store) (id : BlockId) (c : List Nat)
    (ctx : CheckpointContext) (s2 : Store) (tr : List Ev)
    (h : _saveCheckpoint s id c ctx = some (s2, tr)) :
    ∃ t, prevNewest s id = some t ∧
      (∃ m2, s2.getData .metadata = some (.meta m2) ∧ m2.newest = some id) ∧
      s2.getData (.linksK id) = some (.links ⟨some t, some id⟩) ∧
      (t ≠ id → ∃ l2, s2.getData (.linksK t) = some (.links l2) ∧
        l2.next = some id) := by
  cases hm : RestoreMetadata s with
  | none =>
      cases hl : decodeLinks (s.getData (.linksK id)) with
      | none =>
          have h1 : (s.setData .metadata
              (some (.meta ⟨1, some id, some id⟩))).getData (.linksK id) =
              s.getData (.linksK id) := getData_setData_ne _ _ _ _ (by simp)
          simp only [_saveCheckpoint, hm, SaveMetadata, saveData] at h
          rw [SaveCheckpoint_none _ _ _ _ _ _ _ (by rw [h1]; exact hl)] at h
          exact Option.noConfusion h
      | some l =>
          rw [_saveCheckpoint_empty_eq s id c ctx l hm hl] at h
          injection h with h2
          injection h2 with ha hb
          subst ha
          refine ⟨id, by simp [prevNewest, hm],
            ⟨⟨1, some id, some id⟩, getData_setData_same _ _ _, rfl⟩, ?_,
            fun hne => absurd rfl hne⟩
          rw [getData_setData_ne _ _ _ _ (by simp), getData_setData_same]
  | some d =>
      cases d with
      | meta m =>
          cases ht : m.newest with
          | none =>
              simp only [_saveCheckpoint, hm, decodeMeta, ht] at h
              exact Option.noConfusion h
          | some t =>
              cases hl : decodeLinks (s.getData (.linksK t)) with
              | none =>
                  simp only [_saveCheckpoint, hm, decodeMeta, ht] at h
                  rw [SaveCheckpoint_none _ _ _ _ _ _ _ hl] at h
                  exact Option.noConfusion h
              | some l =>
                  rw [_saveCheckpoint_tip_eq s id t c ctx m l hm ht hl] at h
                  injection h with h2
                  injection h2 with ha hb
                  subst ha
                  refine ⟨t, by simp [prevNewest, hm, decodeMeta, ht],
                    ⟨{ m with newest := some id },
                      getData_setData_same _ _ _, rfl⟩, ?_, ?_⟩
                  · rw [getData_setData_ne _ _ _ _ (by simp), getData_setData_same]
                  · intro hne
                    refine ⟨{ l with next := some id }, ?_, rfl⟩
                    rw [getData_setData_ne _ _ _ _ (by simp),
                      getData_setData_ne _ _ _ _ (by simp [hne]),
                      getData_setData_same]
      | links l0 =>
          simp only [_saveCheckpoint, hm, decodeMeta] at h
          exact Option.noConfusion h
      | queue q0 =>
          simp only [_saveCheckpoint, hm, decodeMeta] at h
          exact Option.noConfusion h
      | manifest m0 =>
          simp only [_saveCheckpoint, hm, decodeMeta] at h
          exact Option.noConfusion h
      | blob b0 =>
          simp only [_saveCheckpoint, hm, decodeMeta] at h
          exact Option.noConfusion h

/-- A concrete first save into an empty store, used by the C2 and C3
witnesses and the C3 counterexample: id `(10, 1)`, contents `[7]`, one
value hash `1`, one machine hash `2`. -/
def c23id : BlockId := ⟨10, 1⟩

def c23ctx : CheckpointContext := ⟨⟨[1], [2]⟩, [1], [2]⟩

def c23meta : CheckpointMetadata := ⟨1, some c23id, some c23id⟩

/-- The store committed by that save. -/
def c23result : Store :=
  ⟨[(.metadata, .meta c23meta),
    (.linksK c23id, .links ⟨some c23id, some c23id⟩),
    (.contentsK c23id, .blob [7]),
    (.manifestK c23id, .manifest ⟨[1], [2]⟩)]⟩

/-- The write trace of that save. -/
def c23trace : List Ev :=
  [.saveData .metadata (some (.meta c23meta)),
   .saveValue 1, .saveMachine 2,
   .saveData (.manifestK c23id) (some (.manifest ⟨[1], [2]⟩)),
   .saveData (.contentsK c23id) (some (.blob [7])),
   .saveData (.linksK c23id) (some (.links ⟨none, some c23id⟩)),
   .saveData (.linksK c23id) (some (.links ⟨some c23id, some c23id⟩)),
   .saveData .metadata (some (.meta c23meta))]

/-- Witness for C2 at the concrete first save. -/
theorem c2_witness :
    _saveCheckpoint ⟨[]⟩ c23id [7] c23ctx = some (c23result, c23trace) ∧
    (∃ t, prevNewest ⟨[]⟩ c23id = some t ∧
      (∃ m2, c23result.getData .metadata = some (.meta m2) ∧
        m2.newest = some c23id) ∧
      c23result.getData (.linksK c23id) =
        some (.links ⟨some t, some c23id⟩) ∧
      (t ≠ c23id → ∃ l2, c23result.getData (.linksK t) = some (.links l2) ∧
        l2.next = some c23id)) :=
  ⟨rfl, c2_committed_save_pointers ⟨[]⟩ c23id [7] c23ctx c23result c23trace rfl⟩

/-! ### Claim C3 -/

/-- Counterexample to C3: at the first save into an empty store, the very
first write is a metadata write (with `oldest = newest = id`) — so a
metadata write DOES precede the checkpoint record writes — and the
unconditional `_updateNextPointer` write (here targeting `links(id)`
itself, with a nil `prev`) happens even though `prev_newest = id`, and
before the links record of the new id, not after it. -/
theorem c3_counterexample :
    _saveCheckpoint ⟨[]⟩ c23id [7] c23ctx = some (c23result, c23trace) ∧
    c23trace.head? = some (.saveData .metadata (some (.meta c23meta))) ∧
    c23trace[5]? = some (.saveData (.linksK c23id)
      (some (.links ⟨none, some c23id⟩))) ∧
    c23trace[6]? = some (.saveData (.linksK c23id)
      (some (.links ⟨some c23id, some c23id⟩))) :=
  ⟨rfl, rfl, rfl, rfl⟩

/-- Claim C3 as amended: every committed save writes, in this order:
(0) when the store was empty, an initial metadata write with
`oldest = newest = id`; (1) each value; (2) each machine; (3) the manifest
and contents of `id`; (4) unconditionally, the read-modify-write of the
previous tip `t`'s links record setting `next = id` (which targets
`links(id)` itself when `t = id`); (5) the links record of `id` with
`prev = t`, `next = id`; (6) the metadata write with `newest = id` as the
final step. -/
theorem c3_amended_write_order (s : Store) (id : BlockId) (c : List Nat)
    (ctx : CheckpointContext) (s2 : Store) (tr : List Ev)
    (h : _saveCheckpoint s id c ctx = some (s2, tr)) :
    ∃ t l mfin, prevNewest s id = some t ∧
      decodeLinks (s.getData (.linksK t)) = some l ∧
      savedMetaAfter s id = some mfin ∧
      tr = (if RestoreMetadata s = none then
              [Ev.saveData .metadata (some (.meta ⟨1, some id, some id⟩))]
            else []) ++
        ctx.values.map Ev.saveValue ++ ctx.machines.map Ev.saveMachine ++
        [Ev.saveData (.manifestK id) (some (.manifest ctx.manifest)),
         Ev.saveData (.contentsK id) (some (.blob c)),
         Ev.saveData (.linksK t) (some (.links { l with next := some id })),
         Ev.saveData (.linksK id) (some (.links ⟨some t, some id⟩)),
         Ev.saveData .metadata (some (.meta mfin))] := by
  cases hm : RestoreMetadata s with
  | none =>
      cases hl : decodeLinks (s.getData (.linksK id)) with
      | none =>
          have h1 : (s.setData .metadata
              (some (.meta ⟨1, some id, some id⟩))).getData (.linksK id) =
              s.getData (.linksK id) := getData_setData_ne _ _ _ _ (by simp)
          simp only [_saveCheckpoint, hm, SaveMetadata, saveData] at h
          rw [SaveCheckpoint_none _ _ _ _ _ _ _ (by rw [h1]; exact hl)] at h
          exact Option.noConfusion h
      | some l =>
          rw [_saveCheckpoint_empty_eq s id c ctx l hm hl] at h
          injection h with h2
          injection h2 with ha hb
          subst hb
          refine ⟨id, l, ⟨1, some id, some id⟩, by simp [prevNewest, hm], hl,
            by simp [savedMetaAfter, hm], ?_⟩
          simp
  | some d =>
      cases d with
      | meta m =>
          cases ht : m.newest with
          | none =>
              simp only [_saveCheckpoint, hm, decodeMeta, ht] at h
              exact Option.noConfusion h
          | some t =>
              cases hl : decodeLinks (s.getData (.linksK t)) with
              | none =>
                  simp only [_saveCheckpoint, hm, decodeMeta, ht] at h
                  rw [SaveCheckpoint_none _ _ _ _ _ _ _ hl] at h
                  exact Option.noConfusion h
              | some l =>
                  rw [_saveCheckpoint_tip_eq s id t c ctx m l hm ht hl] at h
                  injection h with h2
                  injection h2 with ha hb
                  subst hb
                  refine ⟨t, l, { m with newest := some id },
                    by simp [prevNewest, hm, decodeMeta, ht], hl,
                    by simp [savedMetaAfter, hm, decodeMeta], ?_⟩
                  simp
      | links l0 =>
          simp only [_saveCheckpoint, hm, decodeMeta] at h
          exact Option.noConfusion h
      | queue q0 =>
          simp only [_saveCheckpoint, hm, decodeMeta] at h
          exact Option.noConfusion h
      | manifest m0 =>
          simp only [_saveCheckpoint, hm, decodeMeta] at h
          exact Option.noConfusion h
      | blob b0 =>
          simp only [_saveCheckpoint, hm, decodeMeta] at h
          exact Option.noConfusion h

/-- Witness for the amended C3 at the concrete first save. -/
theorem c3_amended_witness :
    _saveCheckpoint ⟨[]⟩ c23id [7] c23ctx = some (c23result, c23trace) ∧
    (∃ t l mfin, prevNewest ⟨[]⟩ c23id = some t ∧
      decodeLinks ((⟨[]⟩ : Store).getData (.linksK t)) = some l ∧
      savedMetaAfter ⟨[]⟩ c23id = some mfin ∧
      c23trace = (if RestoreMetadata ⟨[]⟩ = none then
              [Ev.saveData .metadata (some (.meta ⟨1, some c23id, some c23id⟩))]
            else []) ++
        c23ctx.values.map Ev.saveValue ++ c23ctx.machines.map Ev.saveMachine ++
        [Ev.saveData (.manifestK c23id) (some (.manifest c23ctx.manifest)),
         Ev.saveData (.contentsK c23id) (some (.blob [7])),
         Ev.saveData (.linksK t) (some (.links { l with next := some c23id })),
         Ev.saveData (.linksK c23id) (some (.links ⟨some t, some c23id⟩)),
         Ev.saveData .metadata (some (.meta mfin))]) :=
  ⟨rfl, c3_amended_write_order ⟨[]⟩ c23id [7] c23ctx c23result c23trace rfl⟩

/-! ### Claim C1 -/

/-- Claim C1: reorg reconciliation.  On a store without metadata the
operation returns with no effect; with decodable metadata it runs the loop
from `metadata.newest`.  While `oldest.height < newest.height`: a chain
client error stops immediately with the store as persisted so far; a
matching canonical hash returns; on a mismatch, a links decode failure
stops immediately, and otherwise the loop sets `metadata.newest` to the
tip's `prev`, persists the metadata, enqueues the old tip on the delete
queue, and continues from the new tip.  When only one record remains
(`newest.height ≤ oldest.height`): a client error stops, a match returns,
and a mismatch deletes the metadata entirely and enqueues that last id. -/
theorem c1_reorg_steps (fuel : Nat) (client : ArbClient)
    (oldestId newestId : BlockId) (metadata : CheckpointMetadata)
    (s : Store) (tr : List Ev) :
    (RestoreMetadata s = none →
        QueueReorgedCheckpointsForDeletion fuel client s = (s, [])) ∧
    (∀ m, RestoreMetadata s = some (.meta m) → m.oldest = some oldestId →
        m.newest = some newestId →
        QueueReorgedCheckpointsForDeletion fuel client s =
          queueReorgedLoop client oldestId fuel m newestId s []) ∧
    (oldestId.height < newestId.height →
      (client newestId.height = none →
        queueReorgedLoop client oldestId (fuel + 1) metadata newestId s tr =
          (s, tr)) ∧
      (∀ oc, client newestId.height = some oc →
        (oc.headerHash = newestId.headerHash →
          queueReorgedLoop client oldestId (fuel + 1) metadata newestId s tr =
            (s, tr)) ∧
        (oc.headerHash ≠ newestId.headerHash →
          (decodeLinks (s.getData (.linksK newestId)) = none →
            queueReorgedLoop client oldestId (fuel + 1) metadata newestId s tr =
              (s, tr)) ∧
          (∀ lb p, decodeLinks (s.getData (.linksK newestId)) = some lb →
            lb.prev = some p →
            queueReorgedLoop client oldestId (fuel + 1) metadata newestId s tr =
              queueReorgedLoop client oldestId fuel
                { metadata with newest := some p } p
                (QueueCheckpointForDeletion
                  (s.setData .metadata
                    (some (.meta { metadata with newest := some p })))
                  newestId).1
                (tr ++
                  [Ev.saveData .metadata
                    (some (.meta { metadata with newest := some p }))] ++
                  (QueueCheckpointForDeletion
                    (s.setData .metadata
                      (some (.meta { metadata with newest := some p })))
                    newestId).2))))) ∧
    (newestId.height ≤ oldestId.height →
      (client newestId.height = none →
        queueReorgedLoop client oldestId (fuel + 1) metadata newestId s tr =
          (s, tr)) ∧
      (∀ oc, client newestId.height = some oc →
        (oc.headerHash = newestId.headerHash →
          queueReorgedLoop client oldestId (fuel + 1) metadata newestId s tr =
            (s, tr)) ∧
        (oc.headerHash ≠ newestId.headerHash →
          queueReorgedLoop client oldestId (fuel + 1) metadata newestId s tr =
            ((QueueCheckpointForDeletion (s.setData .metadata none)
                newestId).1,
             tr ++ [Ev.deleteData .metadata] ++
               (QueueCheckpointForDeletion (s.setData .metadata none)
                 newestId).2)))) := by
  refine ⟨?_, ?_, ?_, ?_⟩
  · intro h
    rw [QueueReorgedCheckpointsForDeletion, h]
  · intro m hm ho hn
    simp only [QueueReorgedCheckpointsForDeletion, hm, decodeMeta, ho, hn]
  · intro hlt
    refine ⟨?_, ?_⟩
    · intro hc
      rw [queueReorgedLoop, if_neg (not_le.mpr hlt), hc]
    · intro oc hc
      refine ⟨?_, ?_⟩
      · intro he
        rw [queueReorgedLoop, if_neg (not_le.mpr hlt), hc]
        simp [he]
      · intro hne
        refine ⟨?_, ?_⟩
        · intro hd
          rw [queueReorgedLoop, if_neg (not_le.mpr hlt), hc]
          simp [hne, hd]
        · intro lb p hd hp
          rw [queueReorgedLoop, if_neg (not_le.mpr hlt), hc]
          simp [hne, hd, hp, SaveMetadata, saveData]
  · intro hle
    refine ⟨?_, ?_⟩
    · intro hc
      rw [queueReorgedLoop, if_pos hle, hc]
    · intro oc hc
      refine ⟨?_, ?_⟩
      · intro he
        rw [queueReorgedLoop, if_pos hle, hc]
        simp [he]
      · intro hne
        rw [queueReorgedLoop, if_pos hle, hc]
        simp [hne, DeleteMetadata, deleteData]

/-- Concrete reorg scenario for the C1 witness: checkpoints at heights
10, 11, 12; the canonical chain disagrees at 12 and agrees at 11. -/
def c1m : CheckpointMetadata := ⟨1, some ⟨10, 1⟩, some ⟨12, 3⟩⟩

def c1store : Store :=
  ⟨[(.metadata, .meta c1m),
    (.linksK ⟨12, 3⟩, .links ⟨some ⟨11, 2⟩, some ⟨12, 3⟩⟩),
    (.linksK ⟨11, 2⟩, .links ⟨some ⟨10, 1⟩, some ⟨12, 3⟩⟩)]⟩

def c1client : ArbClient := fun h =>
  if h = 12 then some ⟨12, 9⟩ else if h = 11 then some ⟨11, 2⟩ else none

def c1junk : Store := ⟨[(.linksK ⟨12, 3⟩, .blob [0])]⟩

def c1client2 : ArbClient := fun _ => some ⟨0, 9⟩

/-- Witness for C1, exercising each branch at concrete inputs: no-metadata
return; loop entry from decoded metadata; the continue step (mismatch at
the tip: persist truncated metadata, enqueue, advance); client-error stop;
match return; links-decode-failure stop; and the single-record mismatch
(delete metadata, enqueue the last id). -/
theorem c1_reorg_steps_witness :
    QueueReorgedCheckpointsForDeletion 2 c1client ⟨[]⟩ = (⟨[]⟩, []) ∧
    QueueReorgedCheckpointsForDeletion 5 c1client c1store =
      queueReorgedLoop c1client ⟨10, 1⟩ 5 c1m ⟨12, 3⟩ c1store [] ∧
    queueReorgedLoop c1client ⟨10, 1⟩ (4 + 1) c1m ⟨12, 3⟩ c1store [] =
      queueReorgedLoop c1client ⟨10, 1⟩ 4
        { c1m with newest := some ⟨11, 2⟩ } ⟨11, 2⟩
        (QueueCheckpointForDeletion
          (c1store.setData .metadata
            (some (.meta { c1m with newest := some ⟨11, 2⟩ }))) ⟨12, 3⟩).1
        ([] ++
          [Ev.saveData .metadata
            (some (.meta { c1m with newest := some ⟨11, 2⟩ }))] ++
          (QueueCheckpointForDeletion
            (c1store.setData .metadata
              (some (.meta { c1m with newest := some ⟨11, 2⟩ })))
            ⟨12, 3⟩).2) ∧
    queueReorgedLoop c1client ⟨10, 1⟩ (0 + 1) c1m ⟨13, 4⟩ c1store [] =
      (c1store, []) ∧
    queueReorgedLoop c1client ⟨10, 1⟩ (0 + 1) c1m ⟨11, 2⟩ c1store [] =
      (c1store, []) ∧
    queueReorgedLoop c1client ⟨10, 1⟩ (0 + 1) c1m ⟨12, 3⟩ c1junk [] =
      (c1junk, []) ∧
    queueReorgedLoop c1client2 ⟨10, 1⟩ (0 + 1) c1m ⟨10, 1⟩ c1store [] =
      ((QueueCheckpointForDeletion (c1store.setData .metadata none)
          ⟨10, 1⟩).1,
       [] ++ [Ev.deleteData .metadata] ++
         (QueueCheckpointForDeletion (c1store.setData .metadata none)
           ⟨10, 1⟩).2) := by
  refine ⟨?_, ?_, ?_, ?_, ?_, ?_, ?_⟩
  · exact (c1_reorg_steps 2 c1client ⟨0, 0⟩ ⟨0, 0⟩ ⟨0, none, none⟩ ⟨[]⟩ []).1 rfl
  · exact (c1_reorg_steps 5 c1client ⟨10, 1⟩ ⟨12, 3⟩ c1m c1store []).2.1
      c1m rfl rfl rfl
  · exact ((((c1_reorg_steps 4 c1client ⟨10, 1⟩ ⟨12, 3⟩ c1m c1store
      []).2.2.1 (by decide)).2 ⟨12, 9⟩ (by decide)).2 (by decide)).2
      ⟨some ⟨11, 2⟩, some ⟨12, 3⟩⟩ ⟨11, 2⟩ rfl rfl
  · exact ((c1_reorg_steps 0 c1client ⟨10, 1⟩ ⟨13, 4⟩ c1m c1store
      []).2.2.1 (by decide)).1 (by decide)
  · exact (((c1_reorg_steps 0 c1client ⟨10, 1⟩ ⟨11, 2⟩ c1m c1store
      []).2.2.1 (by decide)).2 ⟨11, 2⟩ (by decide)).1 rfl
  · exact ((((c1_reorg_steps 0 c1client ⟨10, 1⟩ ⟨12, 3⟩ c1m c1junk
      []).2.2.1 (by decide)).2 ⟨12, 9⟩ (by decide)).2 (by decide)).1 rfl
  · exact (((c1_reorg_steps 0 c1client2 ⟨10, 1⟩ ⟨10, 1⟩ c1m c1store
      []).2.2.2 (by decide)).2 ⟨0, 9⟩ rfl).2 (by decide)

/-! ### Claim C6 -/

theorem marshalQueue_append (q : List BlockId) (b : BlockId) :
    marshalQueue (q ++ [b]) = some (.queue (q ++ [b])) := by
  rw [marshalQueue, if_neg]
  simp

/-- The failing store for C6: metadata `(oldest = (10,1), newest = (12,3))`
and a links record for `(10,1)` whose `next` is `(11,2)` — so with
`earliestRollbackPoint = 12` the trim guard `next.height < earliest`
holds. -/
def c6id : BlockId := ⟨10, 1⟩

def c6meta : CheckpointMetadata := ⟨1, some c6id, some ⟨12, 3⟩⟩

def c6base : List (StoreKey × Datum) :=
  [(.metadata, .meta c6meta), (.linksK c6id, .links ⟨some c6id, some ⟨11, 2⟩⟩)]

/-- The same store with `q` already enqueued on the dead queue. -/
def c6store (q : List BlockId) : Store := ⟨(.deadqueue, .queue q) :: c6base⟩

/-- One iteration of the trim loop on the failing store: since the source
never persists the advanced metadata, the iteration only appends `(10,1)`
to the dead queue and loops with the metadata and links unchanged. -/
theorem c6_step (fuel : Nat) (q : List BlockId) (tr : List Ev) :
    QueueOldCheckpointsForDeletion 12 (fuel + 1) (c6store q) tr =
      QueueOldCheckpointsForDeletion 12 fuel (c6store (q ++ [c6id]))
        (tr ++ [Ev.saveData .deadqueue (some (.queue (q ++ [c6id])))]) := by
  have h1 : decodeMeta (RestoreMetadata (c6store q)) = some c6meta := rfl
  have h2 : decodeLinks ((c6store q).getData (.linksK c6id)) =
      some ⟨some c6id, some ⟨11, 2⟩⟩ := rfl
  have h3 : decodeQueue ((c6store q).getData .deadqueue) = some q := rfl
  simp only [QueueOldCheckpointsForDeletion, h1, h2, h3, c6meta,
    QueueCheckpointForDeletion, marshalQueue_append, saveData]
  rw [if_neg (by decide)]
  rfl

/-- The first iteration, starting with no dead queue yet. -/
theorem c6_first_step (fuel : Nat) :
    QueueOldCheckpointsForDeletion 12 (fuel + 1) ⟨c6base⟩ [] =
      QueueOldCheckpointsForDeletion 12 fuel (c6store [c6id])
        [Ev.saveData .deadqueue (some (.queue [c6id]))] := by
  have h1 : decodeMeta (RestoreMetadata ⟨c6base⟩) = some c6meta := rfl
  have h2 : decodeLinks ((⟨c6base⟩ : Store).getData (.linksK c6id)) =
      some ⟨some c6id, some ⟨11, 2⟩⟩ := rfl
  have h3 : decodeQueue ((⟨c6base⟩ : Store).getData .deadqueue) = some [] := rfl
  simp only [QueueOldCheckpointsForDeletion, h1, h2, h3, c6meta,
    QueueCheckpointForDeletion, saveData]
  rw [if_neg (by decide)]
  rfl

theorem c6_loop_aux (fuel : Nat) :
    ∀ (q : List BlockId) (tr : List Ev), ∃ tr2,
      QueueOldCheckpointsForDeletion 12 fuel (c6store q) tr =
        (c6store (q ++ List.replicate fuel c6id), tr2, .outOfFuel) ∧
      tr2.length = tr.length + fuel := by
  induction fuel with
  | zero =>
      intro q tr
      refine ⟨tr, ?_, rfl⟩
      rw [List.replicate, List.append_nil]
      rfl
  | succ n ih =>
      intro q tr
      obtain ⟨tr2, heq, hlen⟩ := ih (q ++ [c6id])
        (tr ++ [Ev.saveData .deadqueue (some (.queue (q ++ [c6id])))])
      refine ⟨tr2, ?_, ?_⟩
      · rw [c6_step n q tr, heq]
        congr 1
        rw [List.append_assoc]
        rfl
      · rw [hlen]
        simp
        omega

/-- Claim C6 is refuted by the code: on the failing store (`c6base`, where
`oldest`'s links point at height 11 and `earliest_kept_height = 12`), the
trim loop never terminates — because the advanced metadata is never
persisted back, every iteration re-reads the same `oldest` — and for every
fuel bound it is still running (`outOfFuel`, never `returned`), having
enqueued the SAME id once per iteration: after `fuel` iterations the dead
queue holds exactly `fuel` copies of `(10, 1)`, not the single enqueue per
removed id the claim requires. -/
theorem c6_trim_head_loops_forever (fuel : Nat) :
    (QueueOldCheckpointsForDeletion 12 fuel ⟨c6base⟩ []).2.2 =
      QOutcome.outOfFuel ∧
    (decodeQueue
        (((QueueOldCheckpointsForDeletion 12 fuel ⟨c6base⟩ []).1).getData
          .deadqueue)).map List.length = some fuel ∧
    (decodeQueue
        (((QueueOldCheckpointsForDeletion 12 fuel ⟨c6base⟩ []).1).getData
          .deadqueue)).map (List.all · (· == c6id)) = some true := by
  cases fuel with
  | zero => exact ⟨rfl, rfl, rfl⟩
  | succ n =>
      obtain ⟨tr2, heq, hlen⟩ := c6_loop_aux n [c6id]
        [Ev.saveData .deadqueue (some (.queue [c6id]))]
      rw [c6_first_step n, heq]
      refine ⟨rfl, ?_, ?_⟩
      · show some (([c6id] ++ List.replicate n c6id).length) = some (n + 1)
        simp [Nat.add_comm]
      · show some (([c6id] ++ List.replicate n c6id).all (· == c6id)) =
          some true
        simp

end Checkpointing
